import Mathlib

/-!
Verification of the Onedata storage-space driver
(`storage_service/locations/models/onedata.py`) of the
archivematica-storage-service repository.

The Python module is shallowly embedded: filesystem contents are explicit
inductive trees, the `xattr`/`scandir`/`subprocess`/HTTP-exec collaborators
are oracles passed as function arguments, and generator pipelines become
list-producing recursive functions.  Every definition is translated from
the source file; the single exception (`scan_directories_and_filter`,
whose definition is not part of the included sources) is modelled from the
spec and marked as such in its doc comment.
-/

/-! ## Small string helpers (structural, kernel-reducible) -/

/-- Python `str.lower()` restricted to what `Char.toLower` provides. -/
def lowerStr (s : String) : String :=
  String.mk (s.data.map Char.toLower)

/-- Case-insensitive name ordering on strings, the sort key
`lambda e: e.name.lower()` of `generate_directory_tree`. -/
def strLe (a b : String) : Prop :=
  lowerStr a ≤ lowerStr b

instance : DecidableRel strLe :=
  fun a b => inferInstanceAs (Decidable (lowerStr a ≤ lowerStr b))

/-- Python substring test `needle in hay` on character lists. -/
def subSeq : List Char → List Char → Bool
  | n, [] => n.isEmpty
  | n, c :: cs => n.isPrefixOf (c :: cs) || subSeq n cs

/-- Python substring test `needle in hay` used by `Onedata.mount` to look
for the space name in the probe output. -/
def strContainsSub (needle hay : String) : Bool :=
  subSeq needle.data hay.data

/-- The literal suffix appended by `browse` and `move_to_storage_service`
before touching the filesystem. -/
def onedataSuffix : String := ".__onedata_archivematica"

/-! ## Filesystem model for the directory scanner

A directory's contents are an `SForest`: a sibling list whose entries are
files (with size and the two Onedata extended attributes, `none` when the
`xattr` read raises `IOError`) or subdirectories (with an `os.access`
read-permission bit, their own attributes and their contents). -/

inductive SForest where
  | nil : SForest
  | consFile (name : String) (size : Nat) (xattrs : Option (String × String))
      (rest : SForest) : SForest
  | consDir (name : String) (readable : Bool) (xattrs : Option (String × String))
      (children : SForest) (rest : SForest) : SForest
deriving DecidableEq

/-- One `scandir` entry as seen by `read_directory` /
`generate_directory_tree`: a file (name, `stat().st_size`, xattrs) or a
directory (name, `os.access(path, os.R_OK)`, xattrs, children). -/
inductive SEnt where
  | file (name : String) (size : Nat) (xattrs : Option (String × String)) : SEnt
  | dir (name : String) (readable : Bool) (xattrs : Option (String × String))
      (children : SForest) : SEnt
deriving DecidableEq

def SEnt.name : SEnt → String
  | .file n _ _ => n
  | .dir n _ _ _ => n

/-- The one-level `scandir.scandir(path)` listing of a directory. -/
def SForest.toEnts : SForest → List SEnt
  | .nil => []
  | .consFile n s x r => SEnt.file n s x :: SForest.toEnts r
  | .consDir n rd x ch r => SEnt.dir n rd x ch :: SForest.toEnts r

/-- `is_local_replica(path)` (onedata.py lines 31-45): reading the two
extended attributes either fails (`IOError`, modelled by `none`, logged and
downgraded to `False`) or yields the pair of attribute strings; the file is
a local replica iff progress is `"100%"` and the block count is `"1"`. -/
def is_local_replica (xattrs : Option (String × String)) : Bool :=
  match xattrs with
  | none => false
  | some (progress, blocks) => progress == "100%" && blocks == "1"

def SEnt.xattrs : SEnt → Option (String × String)
  | .file _ _ x => x
  | .dir _ _ x _ => x

/-- `read_directory(path, only_local_replicas)` (lines 48-55): yield every
`scandir` entry, filtered by `is_local_replica` when the flag is set. -/
def read_directory (only_local_replicas : Bool) (l : List SEnt) : List SEnt :=
  if only_local_replicas then l.filter (fun e => is_local_replica e.xattrs) else l

/-- Modelled from the spec: `scan_directories_and_filter` is called by
`count_objects` (line 84) and by `scan_directories_deep` (line 65) but is
not defined anywhere in the included sources.  Spec §4.3 describes the
recursive descent used for counting: "recursively scan descendants,
applying the replica filter when `onlyLocalReplicas` is set"; its body
coincides with the included `scan_directories_deep` (lines 58-76):
directories are recursed into unconditionally, files are yielded unless
the replica filter is on and the file is not a local replica. -/
def scan_directories_and_filter (only_local_replicas : Bool) : SForest → List SEnt
  | .nil => []
  | .consFile n s x r =>
      (if only_local_replicas && !(is_local_replica x) then []
       else [SEnt.file n s x]) ++ scan_directories_and_filter only_local_replicas r
  | .consDir _ _ _ ch r =>
      scan_directories_and_filter only_local_replicas ch
        ++ scan_directories_and_filter only_local_replicas r

/-- The counting loop of `count_objects` (lines 83-91): `count` starts at
zero, is incremented per yielded entry, and once it reaches 5000 the
sentinel string `"5000+"` is returned instead. -/
def countLoop : Nat → List SEnt → Nat ⊕ String
  | c, [] => Sum.inl c
  | c, _ :: es => if 5000 ≤ c + 1 then Sum.inr "5000+" else countLoop (c + 1) es

/-- `count_objects(path, only_local_replicas)` (lines 79-91). -/
def count_objects (only_local_replicas : Bool) (children : SForest) : Nat ⊕ String :=
  countLoop 0 (scan_directories_and_filter only_local_replicas children)

/-- One value of the `properties` dictionary built by
`generate_directory_tree`: `{"size": ...}` for files, `{"object count": ...}`
for counted directories. -/
inductive EProp where
  | size (n : Nat) : EProp
  | objectCount (c : Nat ⊕ String) : EProp
deriving DecidableEq

/-- The dictionary returned by `generate_directory_tree` (lines 120-121). -/
structure DirTreeResult where
  directories : List String
  entries : List String
  properties : List (String × EProp)
deriving DecidableEq

/-- The sort relation of line 109: compare entries by `e.name.lower()`. -/
def entLe (a b : SEnt) : Prop :=
  lowerStr a.name ≤ lowerStr b.name

instance : DecidableRel entLe :=
  fun a b => inferInstanceAs (Decidable (lowerStr a.name ≤ lowerStr b.name))

instance : IsTotal SEnt entLe :=
  ⟨fun a b => le_total (lowerStr a.name) (lowerStr b.name)⟩

instance : IsTrans SEnt entLe :=
  ⟨fun _ _ _ hab hbc => le_trans hab hbc⟩

/-- The loop body of `generate_directory_tree` (lines 109-118): every entry
name goes into `entries`; a file records its size; a directory is added to
`directories` only when `os.access(entry.path, os.R_OK)` holds, and then its
object count is recorded when `should_count` is set. -/
def build_listing (shouldCount onlyLocal : Bool) : List SEnt → DirTreeResult
  | [] => ⟨[], [], []⟩
  | e :: es =>
      let r := build_listing shouldCount onlyLocal es
      match e with
      | .file n sz _ =>
          ⟨r.directories, n :: r.entries, (n, EProp.size sz) :: r.properties⟩
      | .dir n rd _ ch =>
          if rd then
            ⟨n :: r.directories, n :: r.entries,
             if shouldCount then
               (n, EProp.objectCount (count_objects onlyLocal ch)) :: r.properties
             else r.properties⟩
          else
            ⟨r.directories, n :: r.entries, r.properties⟩

/-- `generate_directory_tree(path, only_local_replicas)` (lines 94-125).
`should_count` is assigned `False` when `only_local_replicas` is set, and
otherwise the ambient `utils.get_setting("object_counting_disabled", False)`
value verbatim (line 103 assigns the setting itself, not its negation); the
setting (from the excluded `common.utils` collaborator) is the
`countingSetting` parameter.  The listing iterates over
`sorted(read_directory(path, False), key=lambda e: e.name.lower())` -- note
the literal `False` of line 109. -/
def generate_directory_tree (onlyLocal countingSetting : Bool) (cs : SForest) :
    DirTreeResult :=
  let shouldCount := if onlyLocal then false else countingSetting
  build_listing shouldCount onlyLocal
    (List.insertionSort entLe (read_directory false cs.toEnts))

/-! ## os.path.normpath (posixpath.normpath) -/

/-- The component loop of `posixpath.normpath`: drop empty and `"."`
components, resolve `".."` against the accumulated stack (kept reversed),
keeping leading `".."` components of relative paths. -/
def normpathAcc : List String → List String → Bool → List String
  | [], acc, _ => acc.reverse
  | c :: cs, acc, isAbs =>
      if c = "" ∨ c = "." then normpathAcc cs acc isAbs
      else if c ≠ ".." ∨ (¬ isAbs ∧ acc = []) ∨ acc.head? = some ".." then
        normpathAcc cs (c :: acc) isAbs
      else
        match acc with
        | [] => normpathAcc cs [] isAbs
        | _ :: rest => normpathAcc cs rest isAbs

/-- Python `path.split('/')` on the character list. -/
def splitSlash : List Char → List Char → List String
  | [], cur => [String.mk cur.reverse]
  | '/' :: cs, cur => String.mk cur.reverse :: splitSlash cs []
  | c :: cs, cur => splitSlash cs (c :: cur)

/-- Number of leading slashes that `posixpath.normpath` preserves:
exactly two are kept as `"//"`, one or three-plus collapse to `"/"`. -/
def leadSlashes (s : String) : Nat :=
  match s.data with
  | '/' :: '/' :: '/' :: _ => 1
  | '/' :: '/' :: _ => 2
  | '/' :: _ => 1
  | _ => 0

/-- `'/'.join(comps)`. -/
def joinComps : List String → String
  | [] => ""
  | [c] => c
  | c :: cs => c ++ "/" ++ joinComps cs

/-- `os.path.normpath` (POSIX flavour), used by both transfer directions. -/
def normpath (p : String) : String :=
  if p = "" then "."
  else
    let slashes := leadSlashes p
    let comps := normpathAcc (splitSlash p.data []) [] (0 < slashes)
    let out := String.mk (List.replicate slashes '/') ++ joinComps comps
    if out = "" then "." else out

/-! ## Mount lifecycle (`Onedata.mount`, lines 305-358)

Subprocess and HTTP-exec collaborators are oracles in a `MountEnv`:

* `exec` answers one `execute_in_pod` call (lines 282-302): the remote
  shell2http endpoint returns an exit code and a body, or the HTTP call
  itself raises (`PodResult.exn`, e.g. `requests` timeout);
* `ismountAt k` is `os.path.ismount(mountpoint)` at the `k`-th entry into
  `mount()` (the local branch re-enters itself, line 358);
* `probeAt k` is the `subprocess.check_output(["ls", mountpoint], timeout=10)`
  probe at the `k`-th attempt: it returns output or times out.

The local branch's `except TimeoutExpired` handler references the names
`TimeoutExpired`, `LOG` and `self.mountpoint`, none of which is defined in
the module; the embedding follows the evident intent of lines 355-358
(catch the timeout, `fusermount -uz`, recurse into `self.mount()`), which
is also how the spec's §9 describes this code.  The recursion is embedded
with explicit fuel; `MountOutcome.fuelOut` marks a run that was still
recursing when the fuel ran out. -/

inductive PodResult where
  | ok (exitCode : Nat) (body : String) : PodResult
  | exn : PodResult
deriving DecidableEq

inductive ProbeResult where
  | ok (out : String) : ProbeResult
  | timeout : ProbeResult
deriving DecidableEq

structure MountEnv where
  exec : List String → PodResult
  ismountAt : Nat → Bool
  probeAt : Nat → ProbeResult

inductive MountOutcome where
  | ok : MountOutcome
  | err (msg : String) : MountOutcome
  | fuelOut : MountOutcome
deriving DecidableEq

/-- The Onedata backend configuration row (lines 128-178) together with the
referenced `Space.path` mount point. -/
structure OnedataConfig where
  spacePath : String
  oneproviderHost : String
  accessToken : String
  spaceName : String
  spaceGuid : String
  oneclientRestEndpoint : String
  manuallyMounted : Bool
  onlyLocalReplicas : Bool
  oneclientCli : String
deriving DecidableEq

/-- The `oneclient` command line assembled in `mount()` (lines 311-322).
Line 320 reads the bare name `oneclient_cli`; the embedding follows the
evident `self.oneclient_cli` intent and splits it on whitespace. -/
def oneclient_command (cfg : OnedataConfig) : List String :=
  ["oneclient", "--enable-archivematica", "--force-proxy-io",
   "-o", "allow_other",
   "-t", cfg.accessToken,
   "-H", cfg.oneproviderHost,
   "--space", cfg.spaceName]
  ++ (if cfg.oneclientCli ≠ "" then
        (cfg.oneclientCli.data.foldr
          (fun c acc => if c = ' ' then "" :: acc
            else match acc with
              | [] => [String.mk [c]]
              | w :: ws => (String.mk [c] ++ w) :: ws) []).filter (· ≠ "")
      else [])
  ++ [cfg.spacePath]

/-- The remote branch of `mount()` (lines 324-342): probe with
`ls mountpoint` through `execute_in_pod`; if the probe succeeds with exit
code 0 and the space name occurs in the body, the client is already
mounted; otherwise `mkdir -p`, `fusermount -uz` and the `oneclient` command
are issued in sequence.  Every exception is caught by the enclosing
`try/except` and only logged, and the exit codes of the three commands are
ignored, so this branch always returns normally.  Returns the trace of
commands issued and the outcome. -/
def mount_remote (cfg : OnedataConfig) (exec : List String → PodResult) :
    List (List String) × MountOutcome :=
  let mp := cfg.spacePath
  let probe := ["ls", mp]
  match exec probe with
  | .exn => ([probe], .ok)
  | .ok code body =>
      if code == 0 && strContainsSub cfg.spaceName body then ([probe], .ok)
      else
        let c1 := ["mkdir", "-p", mp]
        match exec c1 with
        | .exn => ([probe, c1], .ok)
        | .ok _ _ =>
            let c2 := ["fusermount", "-uz", mp]
            match exec c2 with
            | .exn => ([probe, c1, c2], .ok)
            | .ok _ _ =>
                let c3 := oneclient_command cfg
                (([probe, c1, c2, c3], .ok) : List (List String) × MountOutcome)

/-- The local branch of `mount()` (lines 343-358): if `os.path.ismount`
already holds, do nothing; otherwise probe with `ls mountpoint` (note that
this branch never runs the assembled `oneclient` command -- line 349 only
logs it); on a probe timeout, `fusermount -uz` and re-enter `mount()`
(line 358).  `k` counts the re-entries, `fuel` bounds the recursion of the
embedding. -/
def mount_local (mp : String) (ismountAt : Nat → Bool) (probeAt : Nat → ProbeResult) :
    Nat → Nat → List (List String) × MountOutcome
  | _, 0 => ([], .fuelOut)
  | k, fuel + 1 =>
      if ismountAt k then ([], .ok)
      else
        match probeAt k with
        | .ok _ => ([["ls", mp]], .ok)
        | .timeout =>
            let r := mount_local mp ismountAt probeAt (k + 1) fuel
            (["ls", mp] :: ["fusermount", "-uz", mp] :: r.1, r.2)

namespace Onedata

/-- `Onedata.mount` (lines 305-358): dispatch on whether
`oneclient_rest_endpoint` is configured (non-blank). -/
def mount (cfg : OnedataConfig) (env : MountEnv) (fuel : Nat) :
    List (List String) × MountOutcome :=
  if cfg.oneclientRestEndpoint ≠ "" then mount_remote cfg env.exec
  else mount_local cfg.spacePath env.ismountAt env.probeAt 0 fuel

/-- `Onedata.browse` (lines 188-195): append the literal
`".__onedata_archivematica"` suffix to the requested path, call `mount()`,
and return the directory tree generated at the suffixed path.  `sfs` maps a
path to the directory contents found there; the result pairs the mount
command trace with the scan result. -/
def browse (cfg : OnedataConfig) (env : MountEnv) (fuel : Nat)
    (countingSetting : Bool) (sfs : String → SForest) (path : String) :
    List (List String) × DirTreeResult :=
  (( mount cfg env fuel).1,
   generate_directory_tree cfg.onlyLocalReplicas countingSetting
     (sfs (path ++ onedataSuffix)))

end Onedata

/-! ## Filesystem model for the transfer engine

The transfer directions only walk names (`os.walk` yields directory and
file names per root), so their filesystem view is a bare rose forest.
Paths below the walked root are component lists; the root itself is the
string path computed by the method (so a created link
`(destRoot :: rel ++ [f], srcRoot :: rel ++ [f])` mirrors
`os.path.join` on the walked components). -/

inductive Forest where
  | nil : Forest
  | consFile (name : String) (rest : Forest) : Forest
  | consDir (name : String) (children : Forest) (rest : Forest) : Forest
deriving DecidableEq

/-- Names of the non-directory children, the `files` of an `os.walk` row. -/
def fileNames : Forest → List String
  | .nil => []
  | .consFile n r => n :: fileNames r
  | .consDir _ _ r => fileNames r

/-- Names of the directory children, the `dirs` of an `os.walk` row. -/
def dirNames : Forest → List String
  | .nil => []
  | .consFile _ r => dirNames r
  | .consDir n _ r => n :: dirNames r

/-- Relative component paths of all files reachable in a forest. -/
def fileRelF : Forest → List (List String)
  | .nil => []
  | .consFile n r => [n] :: fileRelF r
  | .consDir n ch r => (fileRelF ch).map (n :: ·) ++ fileRelF r

/-- One row of `os.walk`: the root relative to the walked top (as
components), and the directory and file names found there. -/
structure WalkEntry where
  rel : List String
  dirs : List String
  files : List String
deriving DecidableEq

def prefixWalk (n : String) (w : WalkEntry) : WalkEntry :=
  ⟨n :: w.rel, w.dirs, w.files⟩

/-- The rows `os.walk` yields strictly below the top directory, in
top-down order. -/
def walkChildren : Forest → List WalkEntry
  | .nil => []
  | .consFile _ r => walkChildren r
  | .consDir n ch r =>
      (WalkEntry.mk [] (dirNames ch) (fileNames ch) :: walkChildren ch).map (prefixWalk n)
        ++ walkChildren r

/-- `os.walk` over a directory whose contents are `cs`, top-down. -/
def walkF (cs : Forest) : List WalkEntry :=
  WalkEntry.mk [] (dirNames cs) (fileNames cs) :: walkChildren cs

/-- The per-file loop of `move_to_storage_service` (lines 226-237): each
`os.symlink(join(root, f), dest_file)` may fail; the failure is caught by
the surrounding `try/except`, logged, and the loop continues.  `symOk`
tells whether the symlink call at a destination path succeeds; the
successful links `(dest_file, source_file)` are collected. -/
def linkFilesCatch (symOk : List String → Bool) (srcRoot destRoot rel : List String) :
    List String → List (List String × List String)
  | [] => []
  | f :: fs =>
      let d := destRoot ++ (rel ++ [f])
      if symOk d then
        (d, srcRoot ++ (rel ++ [f])) :: linkFilesCatch symOk srcRoot destRoot rel fs
      else linkFilesCatch symOk srcRoot destRoot rel fs

/-- The walk loop of `move_to_storage_service` (lines 217-237). -/
def moveToWalk (symOk : List String → Bool) (srcRoot destRoot : List String) :
    List WalkEntry → List (List String × List String)
  | [] => []
  | w :: ws =>
      linkFilesCatch symOk srcRoot destRoot w.rel w.files
        ++ moveToWalk symOk srcRoot destRoot ws

/-- The per-file loop of `move_from_storage_service` (lines 260-264):
`os.symlink` is *not* wrapped in `try/except` here, so the first failing
call raises out of the whole method.  Returns the links created before the
failure and the failing destination path, if any. -/
def linkFiles (symOk : List String → Bool) (srcRoot destRoot rel : List String) :
    List String → List (List String × List String) × Option (List String)
  | [] => ([], none)
  | f :: fs =>
      let d := destRoot ++ (rel ++ [f])
      if symOk d then
        let r := linkFiles symOk srcRoot destRoot rel fs
        ((d, srcRoot ++ (rel ++ [f])) :: r.1, r.2)
      else ([], some d)

/-- The walk loop of `move_from_storage_service` (lines 252-264): stops at
the first symlink exception. -/
def moveFromWalk (symOk : List String → Bool) (srcRoot destRoot : List String) :
    List WalkEntry → List (List String × List String) × Option (List String)
  | [] => ([], none)
  | w :: ws =>
      let r := linkFiles symOk srcRoot destRoot w.rel w.files
      match r.2 with
      | some d => (r.1, some d)
      | none =>
          let rest := moveFromWalk symOk srcRoot destRoot ws
          (r.1 ++ rest.1, rest.2)

namespace Onedata

/-- `Onedata.move_to_storage_service` (lines 197-239):
`src_path = os.path.normpath(src) + ".__onedata_archivematica"`,
`dest_path = os.path.normpath(dest)`; call `mount()`, then walk `src_path`
mirroring directories and symlinking every file, each symlink failure
caught and logged.  `myfs` maps a root path to the directory contents
found there; the result pairs the mount trace with the created links. -/
def move_to_storage_service (cfg : OnedataConfig) (env : MountEnv) (fuel : Nat)
    (myfs : String → Forest) (symOk : List String → Bool) (src dest : String) :
    List (List String) × List (List String × List String) :=
  let srcPath := normpath src ++ onedataSuffix
  let destPath := normpath dest
  ((mount cfg env fuel).1,
   moveToWalk symOk [srcPath] [destPath] (walkF (myfs srcPath)))

/-- `Onedata.move_from_storage_service` (lines 241-266):
`src_path = os.path.normpath(src)`, `dest_path = os.path.normpath(dest)`;
call `mount()`, then walk `src_path` mirroring directories and symlinking
every file; here `os.symlink` is unprotected, so the first failure aborts
the remaining transfer. -/
def move_from_storage_service (cfg : OnedataConfig) (env : MountEnv) (fuel : Nat)
    (myfs : String → Forest) (symOk : List String → Bool) (src dest : String) :
    List (List String) × (List (List String × List String) × Option (List String)) :=
  let srcPath := normpath src
  let destPath := normpath dest
  ((mount cfg env fuel).1,
   moveFromWalk symOk [srcPath] [destPath] (walkF (myfs srcPath)))

/-- The error raised by `Onedata.save` (lines 268-275).  The module raises
the (not locally imported) `StorageError` of the models package; the spec
calls this surface `ConfigurationError`. -/
inductive SaveError where
  | storageError (msg : String) : SaveError
deriving DecidableEq

/-- `Onedata.save` (lines 268-275): reject an empty (falsy) mount point and
the reserved `/tmp/oneclient` path before calling `super().save()`;
`.ok ()` means the configuration was persisted. -/
def save (spacePath : String) : Except SaveError Unit :=
  if spacePath = "" then
    .error (.storageError "Oneclient mountpoint must not be empty")
  else if spacePath = "/tmp/oneclient" then
    .error (.storageError "Path must be different than /tmp/oneclient")
  else
    .ok ()

end Onedata

/-! ## Helper lemmas: the counting cap -/

theorem countLoop_below : ∀ (l : List SEnt) (c : Nat), c + l.length < 5000 →
    countLoop c l = Sum.inl (c + l.length) := by
  intro l
  induction l with
  | nil => intro c h; simp [countLoop]
  | cons e es ih =>
      intro c h
      simp only [List.length_cons] at h
      simp only [countLoop]
      rw [if_neg (by omega : ¬ 5000 ≤ c + 1), ih (c + 1) (by omega)]
      congr 1
      simp only [List.length_cons]
      omega

theorem countLoop_atCap : ∀ (l : List SEnt) (c : Nat), c < 5000 → 5000 ≤ c + l.length →
    countLoop c l = Sum.inr "5000+" := by
  intro l
  induction l with
  | nil => intro c h1 h2; simp only [List.length_nil] at h2; omega
  | cons e es ih =>
      intro c h1 h2
      simp only [List.length_cons] at h2
      simp only [countLoop]
      by_cases hc : 5000 ≤ c + 1
      · rw [if_pos hc]
      · rw [if_neg hc]
        exact ih (c + 1) (by omega) (by omega)

/-! ## Helper lemmas: the directory listing -/

theorem build_entries (sc ol : Bool) : ∀ l : List SEnt,
    (build_listing sc ol l).entries = l.map SEnt.name := by
  intro l
  induction l with
  | nil => rfl
  | cons e es ih =>
      cases e with
      | file n sz x => simp [build_listing, SEnt.name, ih]
      | dir n rd x ch =>
          cases rd <;> simp [build_listing, SEnt.name, ih]

theorem build_dirs_sublist (sc ol : Bool) : ∀ l : List SEnt,
    (build_listing sc ol l).directories.Sublist (l.map SEnt.name) := by
  intro l
  induction l with
  | nil => simp [build_listing]
  | cons e es ih =>
      cases e with
      | file n sz x =>
          simpa [build_listing, SEnt.name] using ih.cons n
      | dir n rd x ch =>
          cases rd with
          | false => simpa [build_listing, SEnt.name] using ih.cons n
          | true => simpa [build_listing, SEnt.name] using ih.cons₂ n

theorem build_listing_file (sc ol : Bool) (n : String) (sz : Nat)
    (x : Option (String × String)) (es : List SEnt) :
    build_listing sc ol (SEnt.file n sz x :: es) =
      ⟨(build_listing sc ol es).directories,
       n :: (build_listing sc ol es).entries,
       (n, EProp.size sz) :: (build_listing sc ol es).properties⟩ := rfl

theorem build_listing_dirF (sc ol : Bool) (n : String) (x : Option (String × String))
    (ch : SForest) (es : List SEnt) :
    build_listing sc ol (SEnt.dir n false x ch :: es) =
      ⟨(build_listing sc ol es).directories,
       n :: (build_listing sc ol es).entries,
       (build_listing sc ol es).properties⟩ := rfl

theorem build_listing_dirTC (ol : Bool) (n : String) (x : Option (String × String))
    (ch : SForest) (es : List SEnt) :
    build_listing true ol (SEnt.dir n true x ch :: es) =
      ⟨n :: (build_listing true ol es).directories,
       n :: (build_listing true ol es).entries,
       (n, EProp.objectCount (count_objects ol ch)) :: (build_listing true ol es).properties⟩ := rfl

theorem build_listing_dirTN (ol : Bool) (n : String) (x : Option (String × String))
    (ch : SForest) (es : List SEnt) :
    build_listing false ol (SEnt.dir n true x ch :: es) =
      ⟨n :: (build_listing false ol es).directories,
       n :: (build_listing false ol es).entries,
       (build_listing false ol es).properties⟩ := rfl

theorem build_props_keys_sub (sc ol : Bool) : ∀ l : List SEnt,
    ((build_listing sc ol l).properties.map Prod.fst) ⊆ l.map SEnt.name := by
  intro l
  induction l with
  | nil => simp [build_listing]
  | cons e es ih =>
      intro m hm
      cases e with
      | file n sz x =>
          simp only [build_listing_file, List.map_cons, List.mem_cons, SEnt.name] at hm ⊢
          rcases hm with h | h
          · exact Or.inl h
          · exact Or.inr (ih h)
      | dir n rd x ch =>
          cases rd with
          | false =>
              simp only [build_listing_dirF, List.map_cons, List.mem_cons, SEnt.name] at hm ⊢
              exact Or.inr (ih hm)
          | true =>
              cases sc with
              | false =>
                  simp only [build_listing_dirTN, List.map_cons, List.mem_cons,
                    SEnt.name] at hm ⊢
                  exact Or.inr (ih hm)
              | true =>
                  simp only [build_listing_dirTC, List.map_cons, List.mem_cons,
                    SEnt.name] at hm ⊢
                  rcases hm with h | h
                  · exact Or.inl h
                  · exact Or.inr (ih h)

theorem build_dirs_unreadable (sc ol : Bool) : ∀ (l : List SEnt) (n : String)
    (x : Option (String × String)) (ch : SForest),
    (l.map SEnt.name).Nodup → SEnt.dir n false x ch ∈ l →
    n ∉ (build_listing sc ol l).directories := by
  intro l
  induction l with
  | nil => intro n x ch _ hmem; exact absurd hmem (List.not_mem_nil _)
  | cons e es ih =>
      intro n x ch hnd hmem
      have hnd' : (es.map SEnt.name).Nodup := (List.nodup_cons.1 hnd).2
      have hhead : SEnt.name e ∉ es.map SEnt.name := (List.nodup_cons.1 hnd).1
      rcases List.mem_cons.1 hmem with rfl | hmem'
      · -- the unreadable directory is the head entry
        simp only [build_listing_dirF]
        intro hin
        exact hhead ((build_dirs_sublist sc ol es).subset hin)
      · -- the unreadable directory is in the tail
        have hname : n ∈ es.map SEnt.name :=
          List.mem_map.2 ⟨SEnt.dir n false x ch, hmem', rfl⟩
        have hne : SEnt.name e ≠ n := fun h => hhead (h ▸ hname)
        cases e with
        | file m sz y =>
            simp only [build_listing_file]
            exact ih n x ch hnd' hmem'
        | dir m rd y ch' =>
            cases rd with
            | false =>
                simp only [build_listing_dirF]
                exact ih n x ch hnd' hmem'
            | true =>
                cases sc with
                | false =>
                    simp only [build_listing_dirTN, List.mem_cons]
                    intro hin
                    rcases hin with h | h
                    · exact hne h.symm
                    · exact ih n x ch hnd' hmem' h
                | true =>
                    simp only [build_listing_dirTC, List.mem_cons]
                    intro hin
                    rcases hin with h | h
                    · exact hne h.symm
                    · exact ih n x ch hnd' hmem' h

theorem build_props_unreadable (sc ol : Bool) : ∀ (l : List SEnt) (n : String)
    (x : Option (String × String)) (ch : SForest),
    (l.map SEnt.name).Nodup → SEnt.dir n false x ch ∈ l →
    n ∉ ((build_listing sc ol l).properties.map Prod.fst) := by
  intro l
  induction l with
  | nil => intro n x ch _ hmem; exact absurd hmem (List.not_mem_nil _)
  | cons e es ih =>
      intro n x ch hnd hmem
      have hnd' : (es.map SEnt.name).Nodup := (List.nodup_cons.1 hnd).2
      have hhead : SEnt.name e ∉ es.map SEnt.name := (List.nodup_cons.1 hnd).1
      rcases List.mem_cons.1 hmem with rfl | hmem'
      · simp only [build_listing_dirF]
        intro hin
        exact hhead (build_props_keys_sub sc ol es hin)
      · have hname : n ∈ es.map SEnt.name :=
          List.mem_map.2 ⟨SEnt.dir n false x ch, hmem', rfl⟩
        have hne : SEnt.name e ≠ n := fun h => hhead (h ▸ hname)
        cases e with
        | file m sz y =>
            simp only [build_listing_file, List.map_cons, List.mem_cons]
            intro hin
            rcases hin with h | h
            · exact hne h.symm
            · exact ih n x ch hnd' hmem' h
        | dir m rd y ch' =>
            cases rd with
            | false =>
                simp only [build_listing_dirF]
                exact ih n x ch hnd' hmem'
            | true =>
                cases sc with
                | false =>
                    simp only [build_listing_dirTN]
                    exact ih n x ch hnd' hmem'
                | true =>
                    simp only [build_listing_dirTC, List.map_cons, List.mem_cons]
                    intro hin
                    rcases hin with h | h
                    · exact hne h.symm
                    · exact ih n x ch hnd' hmem' h

theorem build_no_objectCount (ol : Bool) : ∀ (l : List SEnt) (n : String) (c : Nat ⊕ String),
    (n, EProp.objectCount c) ∉ (build_listing false ol l).properties := by
  intro l
  induction l with
  | nil => intro n c; simp [build_listing]
  | cons e es ih =>
      intro n c
      cases e with
      | file m sz y =>
          simp only [build_listing_file, List.mem_cons]
          intro hin
          rcases hin with h | h
          · exact absurd (congrArg Prod.snd h) (by simp)
          · exact ih n c h
      | dir m rd y ch' =>
          cases rd with
          | false => simp only [build_listing_dirF]; exact ih n c
          | true => simp only [build_listing_dirTN]; exact ih n c

/-! ## Concrete configurations and oracles used as failing inputs -/

/-- A remote-exec configuration with `manually_mounted = True`. -/
def cfgC1 : OnedataConfig :=
  ⟨"/mnt/onedata", "oneprovider.local", "t0k", "space1", "", "http://ep", true, false, ""⟩

/-- Remote exec oracle whose liveness probe (`ls`) exits with code 1, so
the remount sequence runs; every other command succeeds. -/
def execC1 : List String → PodResult :=
  fun c => if c = ["ls", "/mnt/onedata"] then PodResult.ok 1 "" else PodResult.ok 0 ""

def envC1 : MountEnv := ⟨execC1, fun _ => false, fun _ => ProbeResult.ok ""⟩

/-- A local-transport configuration (no REST endpoint). -/
def cfgC2 : OnedataConfig :=
  ⟨"/mnt/onedata", "oneprovider.local", "t0k", "space1", "", "", false, false, ""⟩

/-- Local oracles: the mount point never reports mounted and the `ls`
probe times out on every attempt. -/
def envC2 : MountEnv := ⟨fun _ => PodResult.ok 0 "", fun _ => false, fun _ => ProbeResult.timeout⟩

/-- Occurrences of one command in a command trace. -/
def countCmd (c : List String) : List (List String) → Nat
  | [] => 0
  | d :: ds => (if d = c then 1 else 0) + countCmd c ds

theorem mount_local_timeout_aux : ∀ (fuel k : Nat),
    ((mount_local "/mnt/onedata" (fun _ => false) (fun _ => ProbeResult.timeout) k fuel).2
        = MountOutcome.fuelOut)
    ∧ (countCmd ["fusermount", "-uz", "/mnt/onedata"]
        (mount_local "/mnt/onedata" (fun _ => false) (fun _ => ProbeResult.timeout) k fuel).1
        = fuel) := by
  intro fuel
  induction fuel with
  | zero => intro k; exact ⟨rfl, rfl⟩
  | succ m ih =>
      intro k
      have h := ih (k + 1)
      have hne : (["ls", "/mnt/onedata"] : List String)
          ≠ ["fusermount", "-uz", "/mnt/onedata"] := by decide
      constructor
      · simpa [mount_local] using h.1
      · simp [mount_local, countCmd, hne, h.2]
        omega

/-- Claim C2: the claim describes the intended bounded reconciliation
(at most one remount, then success or `MountError`), but the code's local
branch re-enters `mount()` after every probe timeout (line 358) with no
bound: with a probe that times out persistently, the run performs as many
`fusermount -uz` remount attempts as the fuel allows and never completes,
for every fuel. -/
theorem onedata_C2_bug : ∀ fuel : Nat,
    ((Onedata.mount cfgC2 envC2 fuel).2 = MountOutcome.fuelOut)
    ∧ (countCmd ["fusermount", "-uz", "/mnt/onedata"] (Onedata.mount cfgC2 envC2 fuel).1
        = fuel) := by
  intro fuel
  have h := mount_local_timeout_aux fuel 0
  constructor
  · simpa [Onedata.mount, cfgC2, envC2] using h.1
  · simpa [Onedata.mount, cfgC2, envC2] using h.2

/-- Claim C1: `manually_mounted = True` must suppress every mount/unmount
side effect, but `mount()` (lines 305-358) never reads the flag: with a
remote-exec configuration whose probe fails, `browse` and both transfer
directions all issue the `fusermount -uz` unmount and the `oneclient`
mount command through the exec transport. -/
theorem onedata_C1_bug :
    cfgC1.manuallyMounted = true
    ∧ oneclient_command cfgC1
        ∈ (Onedata.browse cfgC1 envC1 1 false (fun _ => SForest.nil) "/sp").1
    ∧ ["fusermount", "-uz", "/mnt/onedata"]
        ∈ (Onedata.browse cfgC1 envC1 1 false (fun _ => SForest.nil) "/sp").1
    ∧ oneclient_command cfgC1
        ∈ (Onedata.move_to_storage_service cfgC1 envC1 1 (fun _ => Forest.nil)
            (fun _ => true) "/s" "/d").1
    ∧ oneclient_command cfgC1
        ∈ (Onedata.move_from_storage_service cfgC1 envC1 1 (fun _ => Forest.nil)
            (fun _ => true) "/s" "/d").1 := by
  decide

/-- The non-replicated file used as C3's failing input: it carries no
Onedata extended attributes at all. -/
def entC3 : SForest := SForest.consFile "f.txt" 10 none SForest.nil

/-- Claim C3: with `only_local_replicas = True` no non-replicated entry may
appear in scan results; but `generate_directory_tree` line 109 calls
`read_directory(path, False)` with a literal `False`, so a file that is not
a local replica (here: no xattrs) still appears in `entries`.  (The second
half of the claim does hold: with the flag set, `should_count` is `False`
and no `"object count"` property is ever produced, last conjunct.) -/
theorem onedata_C3_bug :
    is_local_replica none = false
    ∧ (generate_directory_tree true false entC3).entries = ["f.txt"]
    ∧ read_directory true entC3.toEnts = []
    ∧ (∀ (countingSetting : Bool) (cs : SForest) (n : String) (c : Nat ⊕ String),
        (n, EProp.objectCount c) ∉ (generate_directory_tree true countingSetting cs).properties) := by
  refine ⟨rfl, by decide, by decide, ?_⟩
  intro cset cs n c
  exact build_no_objectCount true _ n c

/-- Claim C4: `count_objects` either returns the exact number of entries
yielded by the recursive scan when that number is below the 5000 cap, or
exactly the sentinel string `"5000+"` once the cap is reached; it never
returns a numeric count at or above the cap. -/
theorem onedata_C4 : ∀ (only_local : Bool) (cs : SForest),
    (count_objects only_local cs
        = Sum.inl ((scan_directories_and_filter only_local cs).length)
      ∧ (scan_directories_and_filter only_local cs).length < 5000)
    ∨ (count_objects only_local cs = Sum.inr "5000+"
      ∧ 5000 ≤ (scan_directories_and_filter only_local cs).length) := by
  intro b cs
  by_cases h : (scan_directories_and_filter b cs).length < 5000
  · left
    refine ⟨?_, h⟩
    have := countLoop_below (scan_directories_and_filter b cs) 0 (by omega)
    simpa [count_objects] using this
  · right
    have hge : 5000 ≤ (scan_directories_and_filter b cs).length := by omega
    refine ⟨?_, hge⟩
    have := countLoop_atCap (scan_directories_and_filter b cs) 0 (by omega) (by omega)
    simpa [count_objects] using this

/-- Claim C9: `save` rejects an empty or reserved (`/tmp/oneclient`) mount
point with the configuration error before persisting, persists every other
mount point, and `browse` never produces such an error: for every
configuration (valid or not) it returns the generated directory tree. -/
theorem onedata_C9 : ∀ p : String,
    ((p = "" ∨ p = "/tmp/oneclient") → ∃ e, Onedata.save p = Except.error e)
    ∧ ((p ≠ "" ∧ p ≠ "/tmp/oneclient") → Onedata.save p = Except.ok ())
    ∧ (∀ (cfg : OnedataConfig) (env : MountEnv) (fuel : Nat) (countingSetting : Bool)
        (sfs : String → SForest) (q : String),
        (Onedata.browse cfg env fuel countingSetting sfs q).2
          = generate_directory_tree cfg.onlyLocalReplicas countingSetting
              (sfs (q ++ onedataSuffix))) := by
  intro p
  refine ⟨?_, ?_, ?_⟩
  · rintro (rfl | rfl)
    · exact ⟨_, rfl⟩
    · exact ⟨_, rfl⟩
  · rintro ⟨h1, h2⟩
    unfold Onedata.save
    rw [if_neg h1, if_neg h2]
  · intro cfg env fuel cset sfs q
    rfl

/-- Witness for C9 at the reserved sentinel path and at an ordinary path. -/
theorem onedata_C9_witness :
    (∃ e, Onedata.save "/tmp/oneclient" = Except.error e)
    ∧ Onedata.save "/mnt/data" = Except.ok () :=
  ⟨(onedata_C9 "/tmp/oneclient").1 (Or.inr rfl),
   (onedata_C9 "/mnt/data").2.1 ⟨by decide, by decide⟩⟩

/-- Claim C8 (amended): the remote branch of `mount()` never surfaces any
error and issues at most four exec commands (probe, `mkdir`, `fusermount`,
`oneclient`) -- `execute_in_pod` only logs a non-zero exit code, `mount()`
ignores the returned codes of the remount sequence, and its `try/except`
swallows transport exceptions, so the enclosing operation always proceeds;
the remount attempt is single and never retried. -/
theorem onedata_C8_amended : ∀ (cfg : OnedataConfig) (env : MountEnv) (fuel : Nat),
    cfg.oneclientRestEndpoint ≠ "" →
    ((Onedata.mount cfg env fuel).2 = MountOutcome.ok
     ∧ (Onedata.mount cfg env fuel).1.length ≤ 4) := by
  intro cfg env fuel h
  have hm : Onedata.mount cfg env fuel = mount_remote cfg env.exec := by
    unfold Onedata.mount
    rw [if_pos h]
  rw [hm]
  simp only [mount_remote]
  cases hx : env.exec ["ls", cfg.spacePath] with
  | exn => exact ⟨rfl, by simp⟩
  | ok code body =>
      by_cases hc : (code == 0 && strContainsSub cfg.spaceName body) = true
      · simp [hc]
      · simp only [hc, if_false, Bool.false_eq_true]
        cases h1 : env.exec ["mkdir", "-p", cfg.spacePath] with
        | exn => exact ⟨rfl, by simp⟩
        | ok c2 b2 =>
            cases h2 : env.exec ["fusermount", "-uz", cfg.spacePath] with
            | exn => exact ⟨rfl, by simp⟩
            | ok c3 b3 => exact ⟨rfl, by simp⟩

/-- A remote-exec configuration for C8's failing scenario. -/
def cfgC8 : OnedataConfig :=
  ⟨"/mnt/onedata", "oneprovider.local", "t0k", "space1", "", "http://ep", false, false, ""⟩

/-- Exec oracle: the probe exits 1 (not mounted), and the `oneclient`
mount command itself exits 1; everything else succeeds. -/
def execC8 : List String → PodResult :=
  fun c =>
    if c = ["ls", "/mnt/onedata"] then PodResult.ok 1 ""
    else if c = oneclient_command cfgC8 then PodResult.ok 1 "mount failed"
    else PodResult.ok 0 ""

def envC8 : MountEnv := ⟨execC8, fun _ => false, fun _ => ProbeResult.ok ""⟩

/-- Counterexample to C8 as stated: the remote mount command is executed
and returns exit code 1, yet `mount()` finishes with no error surfaced to
the caller (`MountOutcome.ok`, not a `MountError`) -- `execute_in_pod`
only logs the failure and `mount()` discards the exit code. -/
theorem onedata_C8_cex :
    execC8 (oneclient_command cfgC8) = PodResult.ok 1 "mount failed"
    ∧ oneclient_command cfgC8 ∈ (Onedata.mount cfgC8 envC8 1).1
    ∧ (Onedata.mount cfgC8 envC8 1).2 = MountOutcome.ok := by
  decide

/-- Witness for the amended C8 at the concrete failing configuration. -/
theorem onedata_C8_witness :
    (Onedata.mount cfgC8 envC8 1).2 = MountOutcome.ok
    ∧ (Onedata.mount cfgC8 envC8 1).1.length ≤ 4 :=
  onedata_C8_amended cfgC8 envC8 1 (by decide)

/-- Claim C5: in every listing produced by `generate_directory_tree`,
`directories` is a subset of `entries`, both are sorted case-insensitively
by name, and an unreadable child directory (with duplicate-free sibling
names, as a real directory has) appears in `entries` but neither in
`directories` nor among the property keys (so it is excluded from object
counting). -/
theorem onedata_C5 : ∀ (b countingSetting : Bool) (cs : SForest),
    ((generate_directory_tree b countingSetting cs).directories
        ⊆ (generate_directory_tree b countingSetting cs).entries)
    ∧ List.Sorted strLe (generate_directory_tree b countingSetting cs).entries
    ∧ List.Sorted strLe (generate_directory_tree b countingSetting cs).directories
    ∧ (∀ (n : String) (x : Option (String × String)) (ch : SForest),
        (cs.toEnts.map SEnt.name).Nodup → SEnt.dir n false x ch ∈ cs.toEnts →
        n ∈ (generate_directory_tree b countingSetting cs).entries
        ∧ n ∉ (generate_directory_tree b countingSetting cs).directories
        ∧ n ∉ ((generate_directory_tree b countingSetting cs).properties.map Prod.fst)) := by
  intro b st cs
  have hgen : generate_directory_tree b st cs
      = build_listing (if b then false else st) b (List.insertionSort entLe cs.toEnts) := rfl
  have hent : (generate_directory_tree b st cs).entries
      = (List.insertionSort entLe cs.toEnts).map SEnt.name := by
    rw [hgen, build_entries]
  have hsub : (generate_directory_tree b st cs).directories.Sublist
      ((List.insertionSort entLe cs.toEnts).map SEnt.name) := by
    rw [hgen]
    exact build_dirs_sublist _ _ _
  have hsorted : List.Sorted entLe (List.insertionSort entLe cs.toEnts) :=
    List.sorted_insertionSort entLe _
  have hsortedmap : List.Sorted strLe ((List.insertionSort entLe cs.toEnts).map SEnt.name) :=
    List.pairwise_map.mpr hsorted
  refine ⟨?_, ?_, ?_, ?_⟩
  · intro d hd
    rw [hent]
    exact hsub.subset hd
  · rw [hent]
    exact hsortedmap
  · exact hsortedmap.sublist hsub
  · intro n x ch hnd hmem
    have hperm := List.perm_insertionSort entLe cs.toEnts
    have hmem' : SEnt.dir n false x ch ∈ List.insertionSort entLe cs.toEnts :=
      hperm.mem_iff.mpr hmem
    have hnd' : ((List.insertionSort entLe cs.toEnts).map SEnt.name).Nodup :=
      (hperm.map SEnt.name).nodup_iff.mpr hnd
    refine ⟨?_, ?_, ?_⟩
    · rw [hent]
      exact List.mem_map.2 ⟨SEnt.dir n false x ch, hmem', rfl⟩
    · rw [hgen]
      exact build_dirs_unreadable _ _ _ n x ch hnd' hmem'
    · rw [hgen]
      exact build_props_unreadable _ _ _ n x ch hnd' hmem'

/-- The spec §8 scenario: `a.txt` (10 bytes, fully replicated), `B.txt`
(20 bytes, no xattrs) and a non-readable subdirectory `priv`. -/
def entsC5 : SForest :=
  SForest.consFile "a.txt" 10 (some ("100%", "1"))
    (SForest.consFile "B.txt" 20 none
      (SForest.consDir "priv" false none SForest.nil SForest.nil))

/-- Witness for C5 on the spec's scenario directory. -/
theorem onedata_C5_witness :
    "priv" ∈ (generate_directory_tree false false entsC5).entries
    ∧ "priv" ∉ (generate_directory_tree false false entsC5).directories
    ∧ "priv" ∉ ((generate_directory_tree false false entsC5).properties.map Prod.fst) :=
  (onedata_C5 false false entsC5).2.2.2 "priv" none SForest.nil (by decide) (by decide)

/-! ## Helper lemmas: os.walk against reachable file paths -/

theorem fileNames_rel : ∀ (cs : Forest) (f : String), f ∈ fileNames cs → [f] ∈ fileRelF cs := by
  intro cs
  induction cs with
  | nil => intro f hf; exact absurd hf (List.not_mem_nil _)
  | consFile n r ih =>
      intro f hf
      rcases List.mem_cons.1 hf with rfl | hf'
      · exact List.mem_cons_self _ _
      · exact List.mem_cons_of_mem _ (ih f hf')
  | consDir n ch r ihch ihr =>
      intro f hf
      exact List.mem_append_right _ (ihr f hf)

theorem walkChildren_files_rel : ∀ (cs : Forest) (w : WalkEntry) (f : String),
    w ∈ walkChildren cs → f ∈ w.files → w.rel ++ [f] ∈ fileRelF cs := by
  intro cs
  induction cs with
  | nil => intro w f hw; exact absurd hw (List.not_mem_nil _)
  | consFile n r ih =>
      intro w f hw hf
      exact List.mem_cons_of_mem _ (ih w f hw hf)
  | consDir n ch r ihch ihr =>
      intro w f hw hf
      simp only [walkChildren] at hw
      rcases List.mem_append.1 hw with hw | hw
      · rcases List.mem_map.1 hw with ⟨w0, hw0, rfl⟩
        rcases List.mem_cons.1 hw0 with rfl | hw0'
        · -- the row for the subdirectory itself
          refine List.mem_append_left _ ?_
          exact List.mem_map.2 ⟨[f], fileNames_rel ch f hf, rfl⟩
        · -- a deeper row inside the subdirectory
          refine List.mem_append_left _ ?_
          have := ihch w0 f hw0' hf
          exact List.mem_map.2 ⟨w0.rel ++ [f], this, by simp [prefixWalk]⟩
      · exact List.mem_append_right _ (ihr w f hw hf)

theorem walkF_files_rel : ∀ (cs : Forest) (w : WalkEntry) (f : String),
    w ∈ walkF cs → f ∈ w.files → w.rel ++ [f] ∈ fileRelF cs := by
  intro cs w f hw hf
  rcases List.mem_cons.1 hw with rfl | hw'
  · exact fileNames_rel cs f hf
  · exact walkChildren_files_rel cs w f hw' hf

theorem fileRel_walk_aux : ∀ (cs : Forest) (q : List String), q ∈ fileRelF cs →
    (∃ f, f ∈ fileNames cs ∧ q = [f])
    ∨ (∃ w, w ∈ walkChildren cs ∧ ∃ f, f ∈ w.files ∧ q = w.rel ++ [f]) := by
  intro cs
  induction cs with
  | nil => intro q hq; exact absurd hq (List.not_mem_nil _)
  | consFile n r ih =>
      intro q hq
      rcases List.mem_cons.1 hq with rfl | hq'
      · exact Or.inl ⟨n, List.mem_cons_self _ _, rfl⟩
      · rcases ih q hq' with ⟨f, hf, rfl⟩ | ⟨w, hw, f, hf, rfl⟩
        · exact Or.inl ⟨f, List.mem_cons_of_mem _ hf, rfl⟩
        · exact Or.inr ⟨w, hw, f, hf, rfl⟩
  | consDir n ch r ihch ihr =>
      intro q hq
      simp only [fileRelF] at hq
      rcases List.mem_append.1 hq with hq | hq
      · rcases List.mem_map.1 hq with ⟨q0, hq0, rfl⟩
        rcases ihch q0 hq0 with ⟨f, hf, rfl⟩ | ⟨w, hw, f, hf, rfl⟩
        · refine Or.inr ⟨⟨[n], dirNames ch, fileNames ch⟩, ?_, f, hf, rfl⟩
          simp only [walkChildren]
          refine List.mem_append_left _ ?_
          exact List.mem_map.2 ⟨⟨[], dirNames ch, fileNames ch⟩, List.mem_cons_self _ _, rfl⟩
        · refine Or.inr ⟨prefixWalk n w, ?_, f, hf, by simp [prefixWalk]⟩
          simp only [walkChildren]
          refine List.mem_append_left _ ?_
          exact List.mem_map.2 ⟨w, List.mem_cons_of_mem _ hw, rfl⟩
      · rcases ihr q hq with ⟨f, hf, rfl⟩ | ⟨w, hw, f, hf, rfl⟩
        · exact Or.inl ⟨f, hf, rfl⟩
        · refine Or.inr ⟨w, ?_, f, hf, rfl⟩
          simp only [walkChildren]
          exact List.mem_append_right _ hw

theorem fileRel_walk : ∀ (cs : Forest) (q : List String), q ∈ fileRelF cs →
    ∃ w, w ∈ walkF cs ∧ ∃ f, f ∈ w.files ∧ q = w.rel ++ [f] := by
  intro cs q hq
  rcases fileRel_walk_aux cs q hq with ⟨f, hf, rfl⟩ | ⟨w, hw, f, hf, rfl⟩
  · exact ⟨⟨[], dirNames cs, fileNames cs⟩, List.mem_cons_self _ _, f, hf, rfl⟩
  · exact ⟨w, List.mem_cons_of_mem _ hw, f, hf, rfl⟩

/-! ## Helper lemmas: the two symlink loops -/

theorem linkFilesCatch_mem (symOk : List String → Bool) (s d rel : List String) :
    ∀ (fs : List String) (f : String), f ∈ fs → symOk (d ++ (rel ++ [f])) = true →
    (d ++ (rel ++ [f]), s ++ (rel ++ [f])) ∈ linkFilesCatch symOk s d rel fs := by
  intro fs
  induction fs with
  | nil => intro f hf; exact absurd hf (List.not_mem_nil _)
  | cons g gs ih =>
      intro f hf hok
      rcases List.mem_cons.1 hf with rfl | hf'
      · simp only [linkFilesCatch, hok, if_true]
        exact List.mem_cons_self _ _
      · simp only [linkFilesCatch]
        by_cases hg : symOk (d ++ (rel ++ [g])) = true
        · simp only [hg, if_true]
          exact List.mem_cons_of_mem _ (ih f hf' hok)
        · simp only [hg, if_false]
          exact ih f hf' hok

theorem moveToWalk_mem (symOk : List String → Bool) (s d : List String) :
    ∀ (ws : List WalkEntry) (w : WalkEntry) (f : String), w ∈ ws → f ∈ w.files →
    symOk (d ++ (w.rel ++ [f])) = true →
    (d ++ (w.rel ++ [f]), s ++ (w.rel ++ [f])) ∈ moveToWalk symOk s d ws := by
  intro ws
  induction ws with
  | nil => intro w f hw; exact absurd hw (List.not_mem_nil _)
  | cons v vs ih =>
      intro w f hw hf hok
      simp only [moveToWalk]
      rcases List.mem_cons.1 hw with rfl | hw'
      · exact List.mem_append_left _ (linkFilesCatch_mem symOk s d w.rel w.files f hf hok)
      · exact List.mem_append_right _ (ih w f hw' hf hok)

theorem moveTo_complete (symOk : List String → Bool) (s d : List String) :
    ∀ (cs : Forest) (q : List String), q ∈ fileRelF cs → symOk (d ++ q) = true →
    (d ++ q, s ++ q) ∈ moveToWalk symOk s d (walkF cs) := by
  intro cs q hq hok
  rcases fileRel_walk cs q hq with ⟨w, hw, f, hf, rfl⟩
  exact moveToWalk_mem symOk s d (walkF cs) w f hw hf hok

theorem linkFiles_none_iff (symOk : List String → Bool) (s d rel : List String) :
    ∀ fs : List String,
    ((linkFiles symOk s d rel fs).2 = none ↔ ∀ f ∈ fs, symOk (d ++ (rel ++ [f])) = true) := by
  intro fs
  induction fs with
  | nil => simp [linkFiles]
  | cons g gs ih =>
      by_cases hg : symOk (d ++ (rel ++ [g])) = true
      · simp only [linkFiles, hg, if_true]
        constructor
        · intro h2 f hf
          rcases List.mem_cons.1 hf with rfl | hf'
          · exact hg
          · exact (ih.1 h2) f hf'
        · intro hall
          exact ih.2 fun f hf => hall f (List.mem_cons_of_mem _ hf)
      · simp only [linkFiles, hg, if_false]
        constructor
        · intro h2; exact absurd h2 (by simp)
        · intro hall
          exact absurd (hall g (List.mem_cons_self _ _)) hg

theorem linkFiles_all (symOk : List String → Bool) (s d rel : List String) :
    ∀ fs : List String, (∀ f ∈ fs, symOk (d ++ (rel ++ [f])) = true) →
    linkFiles symOk s d rel fs = (linkFilesCatch symOk s d rel fs, none) := by
  intro fs
  induction fs with
  | nil => intro _; rfl
  | cons g gs ih =>
      intro hall
      have hg := hall g (List.mem_cons_self _ _)
      have hrest := ih fun f hf => hall f (List.mem_cons_of_mem _ hf)
      simp only [linkFiles, linkFilesCatch, hg, if_true, hrest]

theorem moveFromWalk_none_iff (symOk : List String → Bool) (s d : List String) :
    ∀ ws : List WalkEntry,
    ((moveFromWalk symOk s d ws).2 = none
      ↔ ∀ w ∈ ws, ∀ f ∈ w.files, symOk (d ++ (w.rel ++ [f])) = true) := by
  intro ws
  induction ws with
  | nil => simp [moveFromWalk]
  | cons v vs ih =>
      simp only [moveFromWalk]
      cases hv : (linkFiles symOk s d v.rel v.files).2 with
      | some x =>
          simp only []
          constructor
          · intro h; exact absurd h (by simp)
          · intro hall
            have := (linkFiles_none_iff symOk s d v.rel v.files).2
              (hall v (List.mem_cons_self _ _))
            rw [hv] at this
            exact absurd this (by simp)
      | none =>
          simp only []
          constructor
          · intro h2 w hw f hf
            rcases List.mem_cons.1 hw with rfl | hw'
            · exact (linkFiles_none_iff symOk s d w.rel w.files).1 hv f hf
            · exact (ih.1 h2) w hw' f hf
          · intro hall
            exact ih.2 fun w hw => hall w (List.mem_cons_of_mem _ hw)

theorem moveFromWalk_all (symOk : List String → Bool) (s d : List String) :
    ∀ ws : List WalkEntry, (∀ w ∈ ws, ∀ f ∈ w.files, symOk (d ++ (w.rel ++ [f])) = true) →
    moveFromWalk symOk s d ws = (moveToWalk symOk s d ws, none) := by
  intro ws
  induction ws with
  | nil => intro _; rfl
  | cons v vs ih =>
      intro hall
      have hv := (linkFiles_none_iff symOk s d v.rel v.files).2
        (hall v (List.mem_cons_self _ _))
      have hrest := ih fun w hw => hall w (List.mem_cons_of_mem _ hw)
      have hlv := linkFiles_all symOk s d v.rel v.files (hall v (List.mem_cons_self _ _))
      simp only [moveFromWalk, moveToWalk, hlv, hrest]

/-! ## Transfer claims -/

/-- A transfer-side configuration/environment (its mount trace is
irrelevant to the link results). -/
def cfgT : OnedataConfig := ⟨"/mnt/onedata", "h", "t", "s", "", "", false, false, ""⟩

def envT : MountEnv := ⟨fun _ => PodResult.ok 0 "", fun _ => true, fun _ => ProbeResult.ok ""⟩

/-- Claim C6 (amended): in `move_to_storage_service` every per-file symlink
failure is caught, so any file whose own symlink call succeeds is linked
regardless of failures on other files; in `move_from_storage_service` the
symlink call is unprotected, so the walk completes without an exception
precisely when every file's symlink succeeds -- a single failure aborts the
remaining transfer. -/
theorem onedata_C6_amended : ∀ (cfg : OnedataConfig) (env : MountEnv) (fuel : Nat)
    (myfs : String → Forest) (symOk : List String → Bool) (src dest : String),
    (∀ q, q ∈ fileRelF (myfs (normpath src ++ onedataSuffix)) →
      symOk ([normpath dest] ++ q) = true →
      ([normpath dest] ++ q, [normpath src ++ onedataSuffix] ++ q)
        ∈ (Onedata.move_to_storage_service cfg env fuel myfs symOk src dest).2)
    ∧ (((Onedata.move_from_storage_service cfg env fuel myfs symOk src dest).2.2 = none)
      ↔ ∀ q ∈ fileRelF (myfs (normpath src)), symOk ([normpath dest] ++ q) = true) := by
  intro cfg env fuel myfs symOk src dest
  constructor
  · intro q hq hok
    exact moveTo_complete symOk [normpath src ++ onedataSuffix] [normpath dest]
      (myfs (normpath src ++ onedataSuffix)) q hq hok
  · rw [show (Onedata.move_from_storage_service cfg env fuel myfs symOk src dest).2
        = moveFromWalk symOk [normpath src] [normpath dest] (walkF (myfs (normpath src)))
        from rfl]
    rw [moveFromWalk_none_iff]
    constructor
    · intro h q hq
      rcases fileRel_walk _ q hq with ⟨w, hw, f, hf, rfl⟩
      exact h w hw f hf
    · intro h w hw f hf
      exact h (w.rel ++ [f]) (walkF_files_rel _ w f hw hf)

/-- The source directory of C6's counterexample: two files, the first of
which will fail to symlink. -/
def myfsC6 : String → Forest :=
  fun p => if p = "/st" then Forest.consFile "a.txt" (Forest.consFile "b.txt" Forest.nil)
    else Forest.nil

def okC6 : List String → Bool := fun d => d ≠ ["/dst", "a.txt"]

/-- Counterexample to C6 as stated: in `move_from_storage_service` the
symlink failure on `a.txt` is *not* caught -- the transfer aborts with no
links created, even though `b.txt`'s symlink would have succeeded. -/
theorem onedata_C6_cex :
    okC6 ["/dst", "b.txt"] = true
    ∧ ["b.txt"] ∈ fileRelF (myfsC6 "/st")
    ∧ (Onedata.move_from_storage_service cfgT envT 1 myfsC6 okC6 "/st" "/dst").2
        = ([], some ["/dst", "a.txt"]) := by
  decide

/-- The source directory of C6's witness: `move_to` direction, same
failure pattern. -/
def myfsC6w : String → Forest :=
  fun p => if p = "/s" ++ onedataSuffix
    then Forest.consFile "a.txt" (Forest.consFile "b.txt" Forest.nil)
    else Forest.nil

def okC6w : List String → Bool := fun d => d ≠ ["/d", "a.txt"]

/-- Witness for the amended C6: in `move_to_storage_service`, `b.txt` is
linked even though `a.txt`'s symlink fails. -/
theorem onedata_C6_witness :
    ([normpath "/d"] ++ ["b.txt"], [normpath "/s" ++ onedataSuffix] ++ ["b.txt"])
      ∈ (Onedata.move_to_storage_service cfgT envT 1 myfsC6w okC6w "/s" "/d").2 :=
  (onedata_C6_amended cfgT envT 1 myfsC6w okC6w "/s" "/d").1 ["b.txt"] (by decide) (by decide)

/-- Claim C7 (amended): after a `move_to_storage_service(A, B, space)` call
in which every symlink operation succeeds, every file reachable under the
walked source tree -- which is `normpath(A) + ".__onedata_archivematica"`,
not `A` itself -- has at the same relative position under `normpath(B)` a
symbolic link whose target is the original file in that walked tree (the
method creates links only, never byte copies). -/
theorem onedata_C7_amended : ∀ (cfg : OnedataConfig) (env : MountEnv) (fuel : Nat)
    (myfs : String → Forest) (symOk : List String → Bool) (a b : String) (q : List String),
    (∀ x, symOk x = true) →
    q ∈ fileRelF (myfs (normpath a ++ onedataSuffix)) →
    ([normpath b] ++ q, [normpath a ++ onedataSuffix] ++ q)
      ∈ (Onedata.move_to_storage_service cfg env fuel myfs symOk a b).2 := by
  intro cfg env fuel myfs symOk a b q hall hq
  exact moveTo_complete symOk [normpath a ++ onedataSuffix] [normpath b]
    (myfs (normpath a ++ onedataSuffix)) q hq (hall _)

/-- C7's counterexample filesystem: the tree under `A = "/src"` holds
`f.txt`, and nothing exists at the walked sibling
`"/src.__onedata_archivematica"`. -/
def myfsC7 : String → Forest :=
  fun p => if p = "/src" then Forest.consFile "f.txt" Forest.nil else Forest.nil

/-- Counterexample to C7 as stated: a file reachable under the source tree
`A` gets no corresponding link under `B` after a successful call with every
symlink succeeding, because the call walks
`normpath(A) + ".__onedata_archivematica"`, not `A`. -/
theorem onedata_C7_cex :
    ["f.txt"] ∈ fileRelF (myfsC7 (normpath "/src"))
    ∧ (Onedata.move_to_storage_service cfgT envT 1 myfsC7 (fun _ => true) "/src" "/dst").2 = []
    ∧ ¬ (∀ q ∈ fileRelF (myfsC7 (normpath "/src")),
        ([normpath "/dst"] ++ q, [normpath "/src"] ++ q)
          ∈ (Onedata.move_to_storage_service cfgT envT 1 myfsC7 (fun _ => true) "/src" "/dst").2) := by
  decide

/-- C7's witness filesystem: a nested file inside the walked tree. -/
def myfsC7w : String → Forest :=
  fun p => if p = "/srcw" ++ onedataSuffix
    then Forest.consDir "d" (Forest.consFile "g.txt" Forest.nil) Forest.nil
    else Forest.nil

/-- Witness for the amended C7: the nested file `d/g.txt` of the walked
tree is linked at the mirrored position. -/
theorem onedata_C7_witness :
    ([normpath "/dstw"] ++ ["d", "g.txt"], [normpath "/srcw" ++ onedataSuffix] ++ ["d", "g.txt"])
      ∈ (Onedata.move_to_storage_service cfgT envT 1 myfsC7w (fun _ => true) "/srcw" "/dstw").2 :=
  onedata_C7_amended cfgT envT 1 myfsC7w (fun _ => true) "/srcw" "/dstw" ["d", "g.txt"]
    (fun _ => rfl) (by decide)

/-- C10's counterexample filesystem: a file exists in the directory at
`"/a/b/" + ".__onedata_archivematica"` (the path the claim says is walked),
while nothing exists at the directory the code actually walks. -/
def myfsC10 : String → Forest :=
  fun p => if p = "/a/b/" ++ onedataSuffix then Forest.consFile "g.txt" Forest.nil
    else Forest.nil

/-- Counterexample to C10 as stated: for the input path `"/a/b/"`,
`move_to_storage_service` does not walk `path + ".__onedata_archivematica"`:
it walks `normpath(path) + ".__onedata_archivematica"`
(= `"/a/b.__onedata_archivematica"`, a sibling), a different directory, so
the file in `"/a/b/.__onedata_archivematica"` produces no link. -/
theorem onedata_C10_cex :
    normpath "/a/b/" ++ onedataSuffix ≠ "/a/b/" ++ onedataSuffix
    ∧ fileRelF (myfsC10 ("/a/b/" ++ onedataSuffix)) = [["g.txt"]]
    ∧ (Onedata.move_to_storage_service cfgT envT 1 myfsC10 (fun _ => true) "/a/b/" "/dst").2
        = [] := by
  decide

/-- Claim C10 (amended): `browse` appends the literal suffix to the path
exactly as given and scans that directory; `move_to_storage_service`
appends the suffix to `os.path.normpath(src)` and mirrors (as symlinks)
precisely the files of the directory found there;
`move_from_storage_service` walks `os.path.normpath(src)` -- an equivalent
spelling of its source directory -- and, when every symlink succeeds,
mirrors its files. -/
theorem onedata_C10_amended : ∀ (cfg : OnedataConfig) (env : MountEnv) (fuel : Nat)
    (countingSetting : Bool) (sfs : String → SForest) (myfs : String → Forest)
    (symOk : List String → Bool) (src dest p : String),
    ((Onedata.browse cfg env fuel countingSetting sfs p).2
        = generate_directory_tree cfg.onlyLocalReplicas countingSetting
            (sfs (p ++ onedataSuffix)))
    ∧ (∀ q, q ∈ fileRelF (myfs (normpath src ++ onedataSuffix)) →
        symOk ([normpath dest] ++ q) = true →
        ([normpath dest] ++ q, [normpath src ++ onedataSuffix] ++ q)
          ∈ (Onedata.move_to_storage_service cfg env fuel myfs symOk src dest).2)
    ∧ ((∀ q ∈ fileRelF (myfs (normpath src)), symOk ([normpath dest] ++ q) = true) →
        ∀ q ∈ fileRelF (myfs (normpath src)),
          ([normpath dest] ++ q, [normpath src] ++ q)
            ∈ (Onedata.move_from_storage_service cfg env fuel myfs symOk src dest).2.1) := by
  intro cfg env fuel cset sfs myfs symOk src dest p
  refine ⟨rfl, ?_, ?_⟩
  · intro q hq hok
    exact moveTo_complete symOk [normpath src ++ onedataSuffix] [normpath dest]
      (myfs (normpath src ++ onedataSuffix)) q hq hok
  · intro hall q hq
    have hwalk : ∀ w ∈ walkF (myfs (normpath src)), ∀ f ∈ w.files,
        symOk ([normpath dest] ++ (w.rel ++ [f])) = true := by
      intro w hw f hf
      exact hall (w.rel ++ [f]) (walkF_files_rel _ w f hw hf)
    have heq := moveFromWalk_all symOk [normpath src] [normpath dest]
      (walkF (myfs (normpath src))) hwalk
    rw [show (Onedata.move_from_storage_service cfg env fuel myfs symOk src dest).2
        = moveFromWalk symOk [normpath src] [normpath dest] (walkF (myfs (normpath src)))
        from rfl, heq]
    exact moveTo_complete symOk [normpath src] [normpath dest]
      (myfs (normpath src)) q hq (hall q hq)

/-- C10's witness filesystem for the `move_from` conjunct. -/
def myfsC10w : String → Forest :=
  fun p => if p = "/s2" then Forest.consFile "h.txt" Forest.nil else Forest.nil

/-- Witness for the amended C10: `move_from_storage_service` walking
`normpath("/s2")` links `h.txt`. -/
theorem onedata_C10_witness :
    ([normpath "/d2"] ++ ["h.txt"], [normpath "/s2"] ++ ["h.txt"])
      ∈ (Onedata.move_from_storage_service cfgT envT 1 myfsC10w (fun _ => true) "/s2" "/d2").2.1 :=
  (onedata_C10_amended cfgT envT 1 false (fun _ => SForest.nil) myfsC10w (fun _ => true)
      "/s2" "/d2" "").2.2 (fun _ _ => rfl) ["h.txt"] (by decide)
